import Mathlib

/-!
Verification development for the keep-ecdsa tBTC extension.

The development shallowly embeds:
* the local chain test double (`pkg/chain/local/tbtc.go`) that records deposit
  and keep state and counts every on-chain submission,
* the deposit monitor harness (`pkg/extensions/tbtc`), modelled from the
  specification because only its tests and interfaces are present,
* the derivation-index store (`pkg/extensions/tbtc/recovery`), modelled from
  the specification because only its tests are present,
* the `DeriveAddress` function for BIP32 child address derivation,
* the Electrs HTTP client (`pkg/chain/bitcoin`), in both of its variants.

Machine integers are modelled as `Nat`; byte strings as `List Nat`.
-/

/-- A byte string; each entry is one byte value. -/
abbrev Bytes := List Nat

/-- The signature stored by the local chain for a deposit
(`pkg/chain/local/tbtc.go`, `type Signature`): `V uint8`, `R [32]uint8`,
`S [32]uint8`. -/
structure ChainSig where
  v : Nat
  r : Bytes
  s : Bytes
deriving Repr, DecidableEq

/-- A keep as tracked by the local chain (`localKeep`): the 64-byte public key,
zero-filled until submitted, and the member addresses.  Operator addresses are
modelled as `Nat`. -/
structure LocalKeep where
  publicKey : Bytes
  members : List Nat
deriving Repr, DecidableEq

/-- A deposit as tracked by the local chain (`localDeposit`): the owning keep,
the retrieved public key (empty until retrieved) and the provided redemption
signature.  The `redemptionFee` field belongs to the newer test double that the
monitor tests exercise; it is modelled from the spec (scenario S4). -/
structure LocalDeposit where
  keepAddress : Nat
  pubkey : Bytes
  signature : Option ChainSig
  redemptionFee : Nat
deriving Repr, DecidableEq

/-- The state of the local chain test double (`TBTCLocalChain` plus
`localChain`): keeps, deposits, and the call counters kept by
`localChainLogger`.  `alwaysFailing` models the `SetAlwaysFailingTransactions`
test capability named by the spec (design note on the local chain double). -/
structure ChainState where
  keeps : List (Nat × LocalKeep)
  deposits : List (String × LocalDeposit)
  retrieveSignerPubkeyCalls : Nat
  provideRedemptionSignatureCalls : Nat
  increaseRedemptionFeeCalls : Nat
  alwaysFailing : List String
deriving Repr, DecidableEq

/-- An empty local chain, as produced by `NewTBTCLocalChain`. -/
def emptyChain : ChainState :=
  { keeps := [], deposits := [], retrieveSignerPubkeyCalls := 0,
    provideRedemptionSignatureCalls := 0, increaseRedemptionFeeCalls := 0,
    alwaysFailing := [] }

/-- Keep lookup, mirroring the `c.keeps[keepAddress]` map accesses. -/
def getKeep (s : ChainState) (keepAddress : Nat) : Option LocalKeep :=
  (s.keeps.find? (fun p => p.1 == keepAddress)).map Prod.snd

/-- Deposit lookup, mirroring the `tlc.deposits[depositAddress]` map accesses. -/
def getLocalDeposit (s : ChainState) (depositAddress : String) : Option LocalDeposit :=
  (s.deposits.find? (fun p => p.1 == depositAddress)).map Prod.snd

/-- Replace the entry for a deposit address. -/
def setLocalDeposit (s : ChainState) (depositAddress : String) (d : LocalDeposit) :
    ChainState :=
  { s with deposits :=
      s.deposits.map (fun p => if p.1 == depositAddress then (p.1, d) else p) }

/-- Replace the entry for a keep address. -/
def setKeep (s : ChainState) (keepAddress : Nat) (k : LocalKeep) : ChainState :=
  { s with keeps :=
      s.keeps.map (fun p => if p.1 == keepAddress then (p.1, k) else p) }

/-- The zero-filled 64-byte public key a fresh keep starts with
(`publicKey: [64]byte{}` in `createKeepWithMembers`). -/
def zeroPubkey : Bytes := List.replicate 64 0

/-- `TBTCLocalChain.CreateDeposit`: opens a keep for the given signers (the
fresh keep has a zero public key, per `createKeepWithMembers` in the local
chain) and registers a deposit pointing at it.  The monitor tests pass the
signing group explicitly, so the keep members are a parameter here. -/
def createDeposit (s : ChainState) (depositAddress : String) (keepAddress : Nat)
    (signers : List Nat) : ChainState :=
  { s with
    keeps := s.keeps ++ [(keepAddress, { publicKey := zeroPubkey, members := signers })],
    deposits := s.deposits ++
      [(depositAddress,
        { keepAddress := keepAddress, pubkey := [], signature := none,
          redemptionFee := 0 })] }

/-- `localChain.SubmitKeepPublicKey`: fails when the keep is unknown or its
public key was already submitted (is not all-zero); otherwise records the key. -/
def submitKeepPublicKey (s : ChainState) (keepAddress : Nat) (publicKey : Bytes) :
    ChainState × Except String Unit :=
  match getKeep s keepAddress with
  | none => (s, Except.error "failed to find keep")
  | some k =>
      if k.publicKey ≠ zeroPubkey then
        (s, Except.error "public key already submitted for keep")
      else
        (setKeep s keepAddress { k with publicKey := publicKey }, Except.ok ())

/-- `TBTCLocalChain.RetrieveSignerPubkey`: the call counter is bumped before
any check (`logRetrieveSignerPubkeyCall` runs first in the source).  The call
fails when the deposit is unknown, when the deposit pubkey was already
retrieved, when the keep is unknown, or when the keep public key is still the
zero value; otherwise it copies the keep public key onto the deposit. -/
def retrieveSignerPubkey (s : ChainState) (depositAddress : String) :
    ChainState × Except String Unit :=
  let s := { s with retrieveSignerPubkeyCalls := s.retrieveSignerPubkeyCalls + 1 }
  match getLocalDeposit s depositAddress with
  | none => (s, Except.error "no deposit with address")
  | some d =>
      if d.pubkey.length > 0 then
        (s, Except.error "pubkey for deposit already retrieved")
      else
        match getKeep s d.keepAddress with
        | none => (s, Except.error "could not find keep for deposit")
        | some k =>
            if k.publicKey.length = 0 ∨ k.publicKey = List.replicate k.publicKey.length 0 then
              (s, Except.error "keep of deposit has no public key yet")
            else
              (setLocalDeposit s depositAddress { d with pubkey := k.publicKey },
               Except.ok ())

/-- `TBTCLocalChain.ProvideRedemptionSignature`: the call counter is bumped
before any check; fails when the deposit is unknown or a signature was already
provided, otherwise stores the signature verbatim. -/
def provideRedemptionSignature (s : ChainState) (depositAddress : String)
    (v : Nat) (r : Bytes) (sg : Bytes) : ChainState × Except String Unit :=
  let s := { s with provideRedemptionSignatureCalls := s.provideRedemptionSignatureCalls + 1 }
  match getLocalDeposit s depositAddress with
  | none => (s, Except.error "no deposit with address")
  | some d =>
      match d.signature with
      | some _ => (s, Except.error "redemption signature for deposit already provided")
      | none =>
          (setLocalDeposit s depositAddress
            { d with signature := some { v := v, r := r, s := sg } },
           Except.ok ())

/-- `TBTCLocalChain.DepositPubkey`: fails when the deposit is unknown or no
pubkey has been retrieved for it yet. -/
def depositPubkey (s : ChainState) (depositAddress : String) : Except String Bytes :=
  match getLocalDeposit s depositAddress with
  | none => Except.error "no deposit with address"
  | some d =>
      if d.pubkey.length = 0 then Except.error "no pubkey for deposit"
      else Except.ok d.pubkey

/-- `TBTCLocalChain.DepositSignature`: fails when the deposit is unknown or no
signature has been provided for it yet. -/
def depositSignature (s : ChainState) (depositAddress : String) :
    Except String ChainSig :=
  match getLocalDeposit s depositAddress with
  | none => Except.error "no deposit with address"
  | some d =>
      match d.signature with
      | none => Except.error "no signature for deposit"
      | some sig => Except.ok sig

/-- `localChain.GetMembers`: fails when the keep is unknown, otherwise returns
its member list. -/
def getMembers (s : ChainState) (keepAddress : Nat) : Except String (List Nat) :=
  match getKeep s keepAddress with
  | none => Except.error "no keep with address"
  | some k => Except.ok k.members

/-- The signer-group filter (spec component C8): this operator is a member of
the deposit when its address appears in the member list of the deposit keep,
resolved through `KeepAddress` and `GetMembers` of the local chain. -/
def isMemberOf (s : ChainState) (operator : Nat) (depositAddress : String) : Bool :=
  match getLocalDeposit s depositAddress with
  | none => false
  | some d =>
      match getKeep s d.keepAddress with
      | none => false
      | some k => k.members.contains operator

/-- Modelled from the spec: the `DepositRedemptionFee` view of the newer
`TBTCLocalChain` test double exercised by the monitor tests; that version of
`pkg/chain/local/tbtc.go` is not under src.  Fails when the deposit is
unknown, otherwise returns its current redemption fee. -/
def depositRedemptionFee (s : ChainState) (depositAddress : String) :
    Except String Nat :=
  match getLocalDeposit s depositAddress with
  | none => Except.error "no deposit with address"
  | some d => Except.ok d.redemptionFee

/-- Modelled from the spec: `TBTCLocalChain.IncreaseRedemptionFee` of the newer
test double (its version under src is a `panic` stub; the behaviour is pinned
by scenario S4 of the spec, after which the deposit fee equals twice its
initial value, and by the `SetAlwaysFailingTransactions` test capability).
The call counter is bumped before any check; the call fails when transactions
of this kind are set to always fail or when the deposit is unknown; otherwise
the deposit redemption fee doubles. -/
def increaseRedemptionFee (s : ChainState) (depositAddress : String) :
    ChainState × Except String Unit :=
  let s := { s with increaseRedemptionFeeCalls := s.increaseRedemptionFeeCalls + 1 }
  if s.alwaysFailing.contains "IncreaseRedemptionFee" then
    (s, Except.error "always failing transaction")
  else
    match getLocalDeposit s depositAddress with
    | none => (s, Except.error "no deposit with address")
    | some d =>
        (setLocalDeposit s depositAddress
          { d with redemptionFee := 2 * d.redemptionFee },
         Except.ok ())

/-- Whether an `Except` result is a success. -/
def exceptOk {ε α : Type} : Except ε α → Bool
  | Except.ok _ => true
  | Except.error _ => false

/-- A monitor recovery action against the chain: it transforms the chain state
and reports success or failure (spec component C3, `action : (ctx, deposit_id)
→ error`). -/
abbrev ChainAction := ChainState → ChainState × Bool

/-- The retrieve-pubkey monitor action: submit `RetrieveSignerPubkey` for the
deposit; the attempt succeeds exactly when the submission does. -/
def retrieveAct (depositAddress : String) : ChainAction := fun s =>
  let (s', r) := retrieveSignerPubkey s depositAddress
  (s', exceptOk r)

/-- The provide-redemption-signature monitor action: submit the given chain
signature for the deposit. -/
def provideSigAct (depositAddress : String) (sig : ChainSig) : ChainAction := fun s =>
  let (s', r) := provideRedemptionSignature s depositAddress sig.v sig.r sig.s
  (s', exceptOk r)

/-- The provide-redemption-proof monitor action: submit
`IncreaseRedemptionFee` for the deposit. -/
def increaseFeeAct (depositAddress : String) : ChainAction := fun s =>
  let (s', r) := increaseRedemptionFee s depositAddress
  (s', exceptOk r)

/-- Modelled from the spec: an event visible to one per-deposit monitor task
after its start event (spec component C3; the monitor harness in
`pkg/extensions/tbtc/tbtc.go` is not under src, only its tests are).  A `stop`
is any matching stop event for the deposit; a `tick` is one unit of elapsed
time towards the action timeout. -/
inductive DepEv
  | stop
  | tick
deriving Repr, DecidableEq

/-- Modelled from the spec: the retry bound of the monitor recovery action,
pinned by scenario S3 of the spec and the `ActionFailed` tests: 3 calls, the
initial one plus 2 retries. -/
def maxActAttempts : Nat := 3

/-- Modelled from the spec: the bounded retry of the recovery action (spec
component C2 applied by the harness step 4).  Runs the action up to `n` times,
stopping at the first success, and returns the final chain state, the number
of failed calls and the number of successful calls. -/
def attemptLoop (act : ChainAction) : Nat → ChainState → ChainState × Nat × Nat
  | 0, s => (s, 0, 0)
  | n + 1, s =>
      let r := act s
      if r.2 then (r.1, 0, 1)
      else
        let rest := attemptLoop act n r.1
        (rest.1, rest.2.1 + 1, rest.2.2)

/-- Modelled from the spec: the race of harness step 4.  With the timer armed
at `t` remaining ticks, the task consumes per-deposit events: any stop event
makes it exit with no action call; when `t` ticks have elapsed the timer fires
and the action runs under the bounded retry; if the run ends (parent
cancellation) before either, no action call is made. -/
def watchRun (act : ChainAction) : Nat → List DepEv → ChainState → ChainState × Nat × Nat
  | 0, _, s => attemptLoop act maxActAttempts s
  | _ + 1, [], s => (s, 0, 0)
  | _ + 1, DepEv.stop :: _, s => (s, 0, 0)
  | t + 1, DepEv.tick :: rest, s => watchRun act t rest s

/-- Modelled from the spec: one per-deposit monitor task (harness steps 1-4).
`member` is the per-deposit guard of step 1; when it is false the task exits
silently with no action call. -/
def runTask (member : Bool) (act : ChainAction) (timeout : Nat)
    (trace : List DepEv) (s : ChainState) : ChainState × Nat × Nat :=
  if member then watchRun act timeout trace s else (s, 0, 0)

/-- Total number of action calls of a task result. -/
def totalCalls (r : ChainState × Nat × Nat) : Nat := r.2.1 + r.2.2

/-- The constant test backoff (`constantBackoff` in
`pkg/extensions/tbtc/tbtc_test.go`): one millisecond for every attempt. -/
def constantBackoff (_ : Nat) : Nat := 1

/-- The instant, in milliseconds after the start event, by which the retrying
action has issued its last call: the monitoring timeout plus the backoff waits
between consecutive attempts. -/
def monitorFinishTime (backoff : Nat → Nat) (timeout attempts : Nat) : Nat :=
  timeout + ((List.range (attempts - 1)).map (fun k => backoff (k + 1))).sum

/-- A stop event arrives strictly before `t` ticks have elapsed: some position
`i < t` of the per-deposit trace holds a stop event. -/
def stopsBefore (t : Nat) (trace : List DepEv) : Prop :=
  ∃ i, i < t ∧ trace.get? i = some DepEv.stop

/-- The action timeout elapses with no stop event: the first `t` positions of
the per-deposit trace all exist and hold ticks. -/
def timerFires (t : Nat) (trace : List DepEv) : Prop :=
  t ≤ trace.length ∧ ∀ i, i < t → trace.get? i = some DepEv.tick

/-- Characters the derivation-index store strips from extended public keys
(`strings.TrimSpace`, restricted to the ASCII whitespace the keys can carry). -/
def isSpaceChar (c : Char) : Bool :=
  c = ' ' || c = '\t' || c = '\n' || c = '\r'

/-- Strip leading whitespace. -/
def ltrim (l : List Char) : List Char := l.dropWhile isSpaceChar

/-- Strip trailing whitespace. -/
def rtrim (l : List Char) : List Char := (l.reverse.dropWhile isSpaceChar).reverse

/-- Strip leading and trailing whitespace, as `strings.TrimSpace` does to the
extended-public-key argument of the store operations. -/
def trimChars (l : List Char) : List Char := rtrim (ltrim l)

/-- Normalized form of an extended-public-key argument. -/
def trimKey (s : String) : List Char := trimChars s.toList

/-- Modelled from the spec: the on-disk state of the derivation-index store
(spec component C7; `pkg/extensions/tbtc/recovery/storage.go` is not under
src, only its tests are).  One entry per `{index}_{bitcoin_address}` file,
grouped under the trimmed extended public key; duplicate entries are allowed
because creating an already-existing file is not an error. -/
structure DerivationIndexStorage where
  entries : List (List Char × Nat × String)
deriving Repr, DecidableEq

/-- The store backed by a fresh directory. -/
def emptyStorage : DerivationIndexStorage := { entries := [] }

/-- Modelled from the spec: `Save(key, index, address)` trims the key, creates
the per-key directory if absent and creates the entry file; already-exists is
not an error, so the entry is recorded unconditionally. -/
def save (st : DerivationIndexStorage) (key : String) (index : Nat)
    (address : String) : DerivationIndexStorage :=
  { entries := st.entries ++ [(trimKey key, index, address)] }

/-- The indices recorded under the trimmed form of `key`, in entry order
(the leading numeric fields of the filenames listed in the per-key
directory). -/
def indicesFor (st : DerivationIndexStorage) (key : String) : List Nat :=
  st.entries.filterMap (fun e => if e.1 = trimKey key then some e.2.1 else none)

/-- Modelled from the spec: `GetNextIndex(key)` trims the key, lists the
directory, parses the leading numeric field of each filename and returns
`max + 1`, or 0 when the directory is empty. -/
def getNextIndex (st : DerivationIndexStorage) (key : String) : Nat :=
  let l := indicesFor st key
  if l.isEmpty then 0 else l.foldr Nat.max 0 + 1

/-- Apply a finite sequence of `Save` calls, in order, to a store.  Each call
is serialized by the per-key mutex, so any concurrent execution coincides with
some such sequence. -/
def applySaves (ops : List (String × Nat × String))
    (st : DerivationIndexStorage) : DerivationIndexStorage :=
  ops.foldl (fun st op => save st op.1 op.2.1 op.2.2) st

/-- The indices a sequence of `Save` calls records for `key`, computed directly
from the call list. -/
def savedIndices (ops : List (String × Nat × String)) (key : String) : List Nat :=
  ops.filterMap (fun op => if trimKey op.1 = trimKey key then some op.2.1 else none)

/-- A parsed BIP32 extended public key as the `hdkeychain` collaborator
represents it, reduced to what `DeriveAddress` observes: the identity of the
parsed key material (`seed`), the depth recorded in the serialization, and the
child indices derived since parsing.  The public key bytes of a derived key
are determined by `seed` and `path`. -/
structure XKey where
  seed : Nat
  depth : Nat
  path : List Nat
deriving Repr, DecidableEq

/-- First child index of the hardened range (`hdkeychain.HardenedKeyStart`,
2^31). -/
def hardenedKeyStart : Nat := 2 ^ 31

/-- Maximum representable depth of an extended key (`depth` is a `uint8`). -/
def maxKeyDepth : Nat := 255

/-- `hdkeychain.ExtendedKey.Child` on a public extended key: fails at the
maximum depth (`ErrDeriveBeyondMaxDepth`) and on a hardened index
(`ErrDeriveHardFromPublic`); otherwise yields the child key one level deeper.
The negligible-probability `ErrInvalidChild` case of the collaborator library
is not modelled. -/
def childKey (k : XKey) (i : Nat) : Except String XKey :=
  if k.depth = maxKeyDepth then
    Except.error "cannot derive a key with more than 255 indices in its path"
  else if i ≥ hardenedKeyStart then
    Except.error "cannot derive a hardened key from a public key"
  else
    Except.ok { seed := k.seed, depth := k.depth + 1, path := k.path ++ [i] }

/-- The descent loop of `DeriveAddress`: take child `/0` until the key depth
reaches 4.  Child `/0` of a public key below the maximum depth never fails, so
the loop is total. -/
def descendToExternalChain (k : XKey) : XKey :=
  if k.depth < 4 then
    descendToExternalChain { seed := k.seed, depth := k.depth + 1, path := k.path ++ [0] }
  else k
termination_by 4 - k.depth

/-- The serialized compressed public key of a derived extended key, as far as
`DeriveAddress` consumes it: an injective encoding of the key material and
derivation path standing in for the secp256k1 point arithmetic of the
collaborator library. -/
def pubkeyBytes (k : XKey) : Bytes := k.seed :: k.path

/-- `btcutil.Hash160` (SHA256 followed by RIPEMD160), modelled as an injective
tagged encoding; `DeriveAddress` uses no property of the digest beyond
determinism. -/
def hash160 (pre : Bytes) : Bytes := 160 :: pre

/-- The Bitcoin network selected from the extended key prefix
(`chaincfg.MainNetParams` / `chaincfg.TestNet3Params`). -/
inductive BtcNetwork
  | mainnet
  | testnet3
deriving Repr, DecidableEq

/-- The address `DeriveAddress` emits, before its final string encoding by the
collaborator library: the form (pay-to-pubkey-hash, pay-to-script-hash, or
native pay-to-witness-pubkey-hash), the network, and the hash payload.  The
canonical address string is determined by these three. -/
inductive BtcAddress
  | p2pkh (net : BtcNetwork) (h : Bytes)
  | p2sh (net : BtcNetwork) (h : Bytes)
  | p2wpkh (net : BtcNetwork) (h : Bytes)
deriving Repr, DecidableEq

/-- Outcome of a `DeriveAddress` call: a derived address string surrogate, a
returned error, or a runtime panic (a Go nil-pointer dereference). -/
inductive DeriveOutcome
  | ok (a : BtcAddress)
  | err (msg : String)
  | panicked
deriving Repr, DecidableEq

/-- The mainnet extended-key prefixes recognized by `DeriveAddress`. -/
def mainnetPrefixes : List (List Char) :=
  [String.toList "xpub", String.toList "ypub", String.toList "zpub"]

/-- The testnet3 extended-key prefixes recognized by `DeriveAddress`. -/
def testnetPrefixes : List (List Char) :=
  [String.toList "tpub", String.toList "upub", String.toList "vpub"]

/-- `DeriveAddress` (the tbtc recovery address derivation): parse the extended
public key, descend `/0` until depth 4, derive the requested index, pick the
network from the four-character prefix, build the address for the prefix form.
`parse` stands for `hdkeychain.NewKeyFromString`, which accepts any version
bytes, so the prefix is examined only after derivation.  An unrecognized
prefix leaves the chain parameters nil and the subsequent
`requestedPublicKey.Address(chainParams)` call dereferences them, which is a
panic, not a returned error. -/
def deriveAddress (parse : String → Option XKey) (extendedPublicKey : String)
    (addressIndex : Nat) : DeriveOutcome :=
  match parse extendedPublicKey with
  | none => DeriveOutcome.err "error parsing extended public key"
  | some extendedKey =>
      let externalChain := descendToExternalChain extendedKey
      match childKey externalChain addressIndex with
      | Except.error _ =>
          DeriveOutcome.err "error deriving requested address index from extended key"
      | Except.ok requestedPublicKey =>
          let descriptor := extendedPublicKey.toList.take 4
          let chainParams : Option BtcNetwork :=
            if mainnetPrefixes.contains descriptor then some BtcNetwork.mainnet
            else if testnetPrefixes.contains descriptor then some BtcNetwork.testnet3
            else none
          match chainParams with
          | none => DeriveOutcome.panicked
          | some net =>
              let pkHash := hash160 (pubkeyBytes requestedPublicKey)
              if descriptor = String.toList "xpub" ∨ descriptor = String.toList "tpub" then
                DeriveOutcome.ok (BtcAddress.p2pkh net pkHash)
              else if descriptor = String.toList "ypub" ∨ descriptor = String.toList "upub" then
                let scriptSig := [0, 0x14] ++ pkHash
                DeriveOutcome.ok (BtcAddress.p2sh net (hash160 scriptSig))
              else
                DeriveOutcome.ok (BtcAddress.p2wpkh net pkHash)

/-- Modelled from the spec: `byteutils.BytesTo32Byte` (referenced by the
source tests; `pkg/utils/byteutils` is not under src): left-pad a byte slice
into a 32-byte array, failing when the input is longer than 32 bytes. -/
def bytesTo32Byte (b : Bytes) : Except String Bytes :=
  if b.length > 32 then Except.error "byte slice too long"
  else Except.ok (List.replicate (32 - b.length) 0 ++ b)

/-- `toChainSignature` (`pkg/extensions/tbtc/tbtc_test.go`): convert a keep
ECDSA signature into the chain form submitted on-chain, with
`v = uint8(27 + recovery_id)` and `r`, `s` left-padded to 32 bytes. -/
def toChainSignature (recoveryID : Nat) (rBytes sBytes : Bytes) :
    Except String ChainSig :=
  let v := (27 + recoveryID) % 256
  match bytesTo32Byte rBytes with
  | Except.error e => Except.error e
  | Except.ok r =>
      match bytesTo32Byte sBytes with
      | Except.error e => Except.error e
      | Except.ok s => Except.ok { v := v, r := r, s := s }

/-- One HTTP response as the Electrs client observes it: `none` models a
transport error from the `httpClient`, `some (status, body)` a delivered
response. -/
abbrev HttpResp := Option (Nat × String)

/-- Modelled from the spec: `utils.DoWithRetry` (spec component C2;
`pkg/utils` is not under src).  The attempt list carries the responses the
successive attempts would observe; its length is the number of attempts the
deadline admits.  The first success wins; once attempts are exhausted the last
error is returned. -/
def doWithRetry {α β : Type} (act : α → Except String β) :
    List α → Except String β
  | [] => Except.error "retry timeout exceeded"
  | [x] => act x
  | x :: y :: rest =>
      match act x with
      | Except.ok b => Except.ok b
      | Except.error _ => doWithRetry act (y :: rest)

/-- One broadcast attempt of `electrsConnection.Broadcast`
(`pkg/chain/bitcoin/electrs.go`): a transport error or a non-200 status fails
the attempt; a 200 response succeeds.  (A body read error, also a failed
attempt in the source, is folded into the transport-error case.) -/
def broadcastAttempt (resp : HttpResp) : Except String Unit :=
  match resp with
  | none => Except.error "transport error"
  | some (status, _) =>
      if status = 200 then Except.ok ()
      else Except.error "failed to broadcast transaction"

/-- `electrsConnection.Broadcast` (`pkg/chain/bitcoin/electrs.go`): with an
empty API URL the call returns an error immediately; otherwise the POST runs
under the default retry until a 200 response or the deadline. -/
def electrsBroadcast (apiURL : String) (responses : List HttpResp) :
    Except String Unit :=
  if apiURL = "" then
    Except.error "attempted to call Broadcast with no apiURL"
  else
    doWithRetry broadcastAttempt responses

/-- `ElectrsConnection.Broadcast`, the older variant concatenated into
`pkg/chain/local/tbtc.go`: with an empty API URL it prints the please-broadcast
warning five times and returns nil; otherwise it performs a single POST with no
retry, failing on a transport error or a non-200 status and succeeding on any
200 response (even when reading the body fails, which is only logged).  The
result pairs the number of warnings printed with the returned error. -/
def legacyBroadcast (apiURL : String) (response : HttpResp) :
    Nat × Except String Unit :=
  if apiURL = "" then (5, Except.ok ())
  else
    match response with
    | none => (0, Except.error "transport error")
    | some (status, _) =>
        if status ≠ 200 then (0, Except.error "something went wrong with broadcast")
        else (0, Except.ok ())

/-- One response to the `address/txs` query of
`electrsConnection.IsAddressUnused`: a transport error, a non-200 status, a
200 response whose body fails to decode, or a decoded transaction list of the
given length. -/
inductive TxsResp
  | transportErr
  | badStatus (status : Nat)
  | decodeErr
  | txs (n : Nat)
deriving Repr, DecidableEq

/-- One attempt of `electrsConnection.IsAddressUnused`: only a 200 response
with a decodable body succeeds, reporting whether the transaction list is
empty. -/
def isAddressUnusedAttempt (resp : TxsResp) : Except String Bool :=
  match resp with
  | TxsResp.transportErr => Except.error "transport error"
  | TxsResp.badStatus _ => Except.error "something went wrong trying to get information about address"
  | TxsResp.decodeErr => Except.error "failed to decode response body"
  | TxsResp.txs n => Except.ok (n = 0)

/-- `electrsConnection.IsAddressUnused` (`pkg/chain/bitcoin/electrs.go`): with
an empty API URL it returns `(true, error)`; otherwise the query runs under
the default retry; if the retry fails past the deadline the result is `(true,
error)`, and only a successful query reporting a non-empty transaction list
yields `false`.  The second component is `some` error message or `none`. -/
def isAddressUnused (apiURL : String) (responses : List TxsResp) :
    Bool × Option String :=
  if apiURL = "" then
    (true, some "attempted to call IsAddressUnused with no apiURL")
  else
    match doWithRetry isAddressUnusedAttempt responses with
    | Except.ok b => (b, none)
    | Except.error e => (true, some e)

/-! ### Helper lemmas for the derivation-index store -/

theorem dropWhile_append_space (w s : List Char) (h : ∀ c ∈ w, isSpaceChar c) :
    (w ++ s).dropWhile isSpaceChar = s.dropWhile isSpaceChar := by
  induction w with
  | nil => rfl
  | cons c w ih =>
      have hc : isSpaceChar c := h c (by simp)
      simp only [List.cons_append, List.dropWhile_cons, hc, if_true]
      exact ih (fun c hc2 => h c (by simp [hc2]))

theorem ltrim_append_space (w s : List Char) (h : ∀ c ∈ w, isSpaceChar c) :
    ltrim (w ++ s) = ltrim s :=
  dropWhile_append_space w s h

theorem ltrim_all_space (w : List Char) (h : ∀ c ∈ w, isSpaceChar c) :
    ltrim w = [] := by
  have := ltrim_append_space w [] h
  simpa using this

theorem rtrim_append_space (s w : List Char) (h : ∀ c ∈ w, isSpaceChar c) :
    rtrim (s ++ w) = rtrim s := by
  unfold rtrim
  rw [List.reverse_append]
  rw [dropWhile_append_space w.reverse s.reverse (fun c hc => h c (List.mem_reverse.mp hc))]

theorem ltrim_append_cases (s w : List Char) :
    ltrim (s ++ w) = ltrim s ++ w ∨ (ltrim s = [] ∧ ltrim (s ++ w) = ltrim w) := by
  induction s with
  | nil => right; exact ⟨rfl, rfl⟩
  | cons c s ih =>
      by_cases hc : isSpaceChar c
      · simpa only [List.cons_append, ltrim, List.dropWhile_cons, hc, if_true] using ih
      · left
        simp [List.cons_append, ltrim, List.dropWhile_cons, hc]

theorem trimChars_pad (w1 s w2 : List Char) (h1 : ∀ c ∈ w1, isSpaceChar c)
    (h2 : ∀ c ∈ w2, isSpaceChar c) :
    trimChars (w1 ++ s ++ w2) = trimChars s := by
  unfold trimChars
  rw [List.append_assoc, ltrim_append_space w1 (s ++ w2) h1]
  rcases ltrim_append_cases s w2 with hcase | ⟨hnil, hcase⟩
  · rw [hcase, rtrim_append_space _ w2 h2]
  · rw [hcase, hnil, ltrim_all_space w2 h2]

/-- The whitespace-only strings the store normalization removes. -/
def allSpace (s : String) : Prop := ∀ c ∈ s.toList, isSpaceChar c

theorem trimKey_pad (w1 key w2 : String) (h1 : allSpace w1) (h2 : allSpace w2) :
    trimKey (w1 ++ key ++ w2) = trimKey key := by
  unfold trimKey
  have : (w1 ++ key ++ w2).toList = w1.toList ++ key.toList ++ w2.toList := by
    simp [String.toList]
  rw [this]
  exact trimChars_pad _ _ _ h1 h2

theorem indicesFor_applySaves (ops : List (String × Nat × String)) (key : String) :
    indicesFor (applySaves ops emptyStorage) key = savedIndices ops key := by
  suffices h : ∀ st : DerivationIndexStorage,
      indicesFor (applySaves ops st) key = indicesFor st key ++ savedIndices ops key by
    simpa [indicesFor, emptyStorage] using h emptyStorage
  induction ops with
  | nil => intro st; simp [applySaves, savedIndices]
  | cons op ops ih =>
      intro st
      have hstep : indicesFor (save st op.1 op.2.1 op.2.2) key =
          indicesFor st key ++
            (if trimKey op.1 = trimKey key then [op.2.1] else []) := by
        simp only [indicesFor, save, List.filterMap_append]
        by_cases h : trimKey op.1 = trimKey key <;> simp [h]
      calc indicesFor (applySaves (op :: ops) st) key
          = indicesFor (applySaves ops (save st op.1 op.2.1 op.2.2)) key := rfl
        _ = indicesFor (save st op.1 op.2.1 op.2.2) key ++ savedIndices ops key := ih _
        _ = indicesFor st key ++ savedIndices (op :: ops) key := by
            rw [hstep, List.append_assoc]
            congr 1
            by_cases h : trimKey op.1 = trimKey key <;> simp [savedIndices, h]

theorem nat_max_eq_sup (a b : Nat) : Nat.max a b = max a b := rfl

theorem foldr_max_mem (l : List Nat) (hne : l ≠ []) : l.foldr Nat.max 0 ∈ l := by
  induction l with
  | nil => exact absurd rfl hne
  | cons x xs ih =>
      cases xs with
      | nil => simp
      | cons y ys =>
          simp only [List.foldr_cons, nat_max_eq_sup] at *
          rcases Nat.le_total x ((y :: ys).foldr Nat.max 0) with h | h
          · simp only [List.foldr_cons, nat_max_eq_sup] at h
            rw [max_eq_right h]
            exact List.mem_cons_of_mem _ (ih (by simp))
          · simp only [List.foldr_cons, nat_max_eq_sup] at h
            rw [max_eq_left h]
            exact List.mem_cons_self _ _

theorem le_foldr_max (l : List Nat) (i : Nat) (hi : i ∈ l) : i ≤ l.foldr Nat.max 0 := by
  induction l with
  | nil => cases hi
  | cons x xs ih =>
      rcases List.mem_cons.mp hi with h | h
      · subst h; exact Nat.le_max_left _ _
      · exact Nat.le_trans (ih h) (Nat.le_max_right _ _)

theorem foldr_max_perm (l₁ l₂ : List Nat) (h : l₁.Perm l₂) :
    l₁.foldr Nat.max 0 = l₂.foldr Nat.max 0 := by
  induction h with
  | nil => rfl
  | cons x _ ih => simp [ih]
  | swap x y l =>
      simp only [List.foldr_cons, nat_max_eq_sup]
      rw [max_left_comm]
  | trans _ _ ih1 ih2 => exact ih1.trans ih2

/-- C2: after any finite sequence of Save calls (serialized, so concurrent
executions coincide with some ordering, and the result is invariant under
reordering; duplicate pairs allowed), GetNextIndex returns 1 plus the maximum
index ever saved for the key, or 0 when no entry was saved for it, and both
operations are unaffected by leading or trailing whitespace on the key
argument. -/
theorem derivation_index_store_spec
    (ops : List (String × Nat × String)) (key : String)
    (w1 w2 : String) (h1 : allSpace w1) (h2 : allSpace w2)
    (ops' : List (String × Nat × String)) (hperm : ops'.Perm ops) :
    (savedIndices ops key = [] →
        getNextIndex (applySaves ops emptyStorage) key = 0) ∧
    (savedIndices ops key ≠ [] →
        ∃ m ∈ savedIndices ops key,
          getNextIndex (applySaves ops emptyStorage) key = m + 1 ∧
          ∀ i ∈ savedIndices ops key, i ≤ m) ∧
    (getNextIndex (applySaves ops emptyStorage) (w1 ++ key ++ w2) =
        getNextIndex (applySaves ops emptyStorage) key) ∧
    (∀ st index address,
        save st (w1 ++ key ++ w2) index address = save st key index address) ∧
    (getNextIndex (applySaves ops' emptyStorage) key =
        getNextIndex (applySaves ops emptyStorage) key) := by
  have hkeyeq : trimKey (w1 ++ key ++ w2) = trimKey key := trimKey_pad w1 key w2 h1 h2
  have hindpad : ∀ st : DerivationIndexStorage,
      indicesFor st (w1 ++ key ++ w2) = indicesFor st key := by
    intro st; simp [indicesFor, hkeyeq]
  refine ⟨?_, ?_, ?_, ?_, ?_⟩
  · intro hnil
    simp [getNextIndex, indicesFor_applySaves, hnil]
  · intro hne
    refine ⟨(savedIndices ops key).foldr Nat.max 0, foldr_max_mem _ hne, ?_,
      fun i hi => le_foldr_max _ i hi⟩
    simp [getNextIndex, indicesFor_applySaves, hne]
  · simp [getNextIndex, hindpad]
  · intro st index address
    simp [save, hkeyeq]
  · have hsperm : (savedIndices ops' key).Perm (savedIndices ops key) :=
      hperm.filterMap _
    have hmax := foldr_max_perm _ _ hsperm
    have hlen := hsperm.length_eq
    simp only [getNextIndex, indicesFor_applySaves]
    rcases Decidable.em (savedIndices ops key = []) with hnil | hne
    · have : savedIndices ops' key = [] := List.eq_nil_of_length_eq_zero (by simp [hlen, hnil])
      simp [this, hnil]
    · have hne' : savedIndices ops' key ≠ [] := by
        intro h0
        exact hne (List.eq_nil_of_length_eq_zero (by simp [← hlen, h0]))
      simp [List.isEmpty_iff, hne, hne', hmax]

/-- Witness for C2 at the concrete inputs of the storage tests: two saves of
index 831 (one with a padded key), queried with key "k" padded by spaces, with
the saves also replayed in the opposite order. -/
theorem derivation_index_store_spec_witness :
    (savedIndices [("k", 831, "a"), (" k ", 831, "b")] "k" = [] →
        getNextIndex (applySaves [("k", 831, "a"), (" k ", 831, "b")] emptyStorage) "k" = 0) ∧
    (savedIndices [("k", 831, "a"), (" k ", 831, "b")] "k" ≠ [] →
        ∃ m ∈ savedIndices [("k", 831, "a"), (" k ", 831, "b")] "k",
          getNextIndex (applySaves [("k", 831, "a"), (" k ", 831, "b")] emptyStorage) "k" = m + 1 ∧
          ∀ i ∈ savedIndices [("k", 831, "a"), (" k ", 831, "b")] "k", i ≤ m) ∧
    (getNextIndex (applySaves [("k", 831, "a"), (" k ", 831, "b")] emptyStorage) (" " ++ "k" ++ "  ") =
        getNextIndex (applySaves [("k", 831, "a"), (" k ", 831, "b")] emptyStorage) "k") ∧
    (∀ st index address,
        save st (" " ++ "k" ++ "  ") index address = save st "k" index address) ∧
    (getNextIndex (applySaves [(" k ", 831, "b"), ("k", 831, "a")] emptyStorage) "k" =
        getNextIndex (applySaves [("k", 831, "a"), (" k ", 831, "b")] emptyStorage) "k") :=
  derivation_index_store_spec [("k", 831, "a"), (" k ", 831, "b")] "k" " " "  "
    (by unfold allSpace; decide) (by unfold allSpace; decide)
    [(" k ", 831, "b"), ("k", 831, "a")] (by decide)

/-! ### Helper lemmas for the monitor harness -/

theorem watchRun_of_stopsBefore (act : ChainAction) (t : Nat) (trace : List DepEv)
    (s : ChainState) (h : stopsBefore t trace) : watchRun act t trace s = (s, 0, 0) := by
  induction trace generalizing t with
  | nil =>
      obtain ⟨i, _, hget⟩ := h
      simp at hget
  | cons e rest ih =>
      obtain ⟨i, hi, hget⟩ := h
      cases t with
      | zero => exact absurd hi (Nat.not_lt_zero i)
      | succ t =>
          cases e with
          | stop => rfl
          | tick =>
              cases i with
              | zero => simp at hget
              | succ j =>
                  show watchRun act t rest s = (s, 0, 0)
                  exact ih t ⟨j, by omega, by simpa using hget⟩

theorem watchRun_of_timerFires (act : ChainAction) (t : Nat) (trace : List DepEv)
    (s : ChainState) (h : timerFires t trace) :
    watchRun act t trace s = attemptLoop act maxActAttempts s := by
  induction trace generalizing t with
  | nil =>
      cases t with
      | zero => rfl
      | succ t =>
          obtain ⟨hlen, _⟩ := h
          simp at hlen
  | cons e rest ih =>
      cases t with
      | zero => rfl
      | succ t =>
          obtain ⟨hlen, hall⟩ := h
          have h0 := hall 0 (Nat.succ_pos t)
          cases e with
          | stop => simp at h0
          | tick =>
              show watchRun act t rest s = attemptLoop act maxActAttempts s
              refine ih t ⟨by simpa using hlen, fun i hi => ?_⟩
              simpa using hall (i + 1) (by omega)

theorem attemptLoop_first_success (act : ChainAction) (s : ChainState)
    (h : (act s).2 = true) (n : Nat) :
    attemptLoop act (n + 1) s = ((act s).1, 0, 1) := by
  simp [attemptLoop, h]

theorem attemptLoop_success_le_one (act : ChainAction) (n : Nat) (s : ChainState) :
    (attemptLoop act n s).2.2 ≤ 1 := by
  induction n generalizing s with
  | zero => simp [attemptLoop]
  | succ n ih =>
      by_cases h : (act s).2 = true
      · simp [attemptLoop, h]
      · simp only [attemptLoop, Bool.not_eq_true] at *
        simp [h, ih]

theorem attemptLoop_total_pos (act : ChainAction) (n : Nat) (s : ChainState) :
    0 < totalCalls (attemptLoop act (n + 1) s) := by
  by_cases h : (act s).2 = true
  · simp [attemptLoop, totalCalls, h]
  · simp only [Bool.not_eq_true] at h
    simp [attemptLoop, totalCalls, h]

theorem runTask_success_le_one (member : Bool) (act : ChainAction) (t : Nat)
    (trace : List DepEv) (s : ChainState) :
    (runTask member act t trace s).2.2 ≤ 1 := by
  unfold runTask
  by_cases hm : member
  · simp only [hm, if_true]
    induction trace generalizing t s with
    | nil =>
        cases t with
        | zero => exact attemptLoop_success_le_one act maxActAttempts s
        | succ t => simp [watchRun]
    | cons e rest ih =>
        cases t with
        | zero => exact attemptLoop_success_le_one act maxActAttempts s
        | succ t =>
            cases e with
            | stop => simp [watchRun]
            | tick => exact ih t s
  · simp [hm]

/-- C1 (amended): for a per-deposit monitor task of any of the three monitors
(the recovery action is arbitrary), started while the operator is a member: if
a stop event arrives before the timeout the task makes zero action calls and
leaves the chain untouched; if the timeout elapses with no stop event the task
makes at least one action call, and exactly one successful call (and no failed
ones) when the action succeeds; and any action call at all implies no stop
event arrived before the timeout. -/
theorem monitor_action_iff_no_stop (act : ChainAction) (t : Nat)
    (trace : List DepEv) (s : ChainState) :
    (stopsBefore t trace → runTask true act t trace s = (s, 0, 0)) ∧
    (timerFires t trace → 0 < totalCalls (runTask true act t trace s)) ∧
    (timerFires t trace → (act s).2 = true →
        runTask true act t trace s = ((act s).1, 0, 1)) ∧
    (0 < totalCalls (runTask true act t trace s) → ¬ stopsBefore t trace) := by
  have hstop : stopsBefore t trace → runTask true act t trace s = (s, 0, 0) := by
    intro h
    simpa [runTask] using watchRun_of_stopsBefore act t trace s h
  refine ⟨hstop, ?_, ?_, ?_⟩
  · intro h
    have : runTask true act t trace s = attemptLoop act maxActAttempts s := by
      simpa [runTask] using watchRun_of_timerFires act t trace s h
    rw [this]
    exact attemptLoop_total_pos act 2 s
  · intro h hsucc
    have : runTask true act t trace s = attemptLoop act maxActAttempts s := by
      simpa [runTask] using watchRun_of_timerFires act t trace s h
    rw [this]
    exact attemptLoop_first_success act s hsucc 2
  · intro hpos h
    rw [hstop h] at hpos
    simp [totalCalls] at hpos

/-- Witness for C1 at the concrete retrieve-pubkey scenario of the tests: with
the keep public key submitted, a run whose timeout elapses makes exactly one
successful `RetrieveSignerPubkey` call, and a run that sees a stop event first
makes zero calls. -/
theorem monitor_action_iff_no_stop_witness :
    runTask true (retrieveAct "d") 1 [DepEv.tick]
        ((submitKeepPublicKey (createDeposit emptyChain "d" 1 [5]) 1
            (List.replicate 64 7)).1) =
      ((retrieveAct "d"
          ((submitKeepPublicKey (createDeposit emptyChain "d" 1 [5]) 1
              (List.replicate 64 7)).1)).1, 0, 1) ∧
    runTask true (retrieveAct "d") 1 [DepEv.stop]
        ((submitKeepPublicKey (createDeposit emptyChain "d" 1 [5]) 1
            (List.replicate 64 7)).1) =
      ((submitKeepPublicKey (createDeposit emptyChain "d" 1 [5]) 1
          (List.replicate 64 7)).1, 0, 0) := by
  constructor
  · refine (monitor_action_iff_no_stop (retrieveAct "d") 1 [DepEv.tick] _).2.2.1 ?_ (by decide)
    refine ⟨by simp, fun i hi => ?_⟩
    have : i = 0 := by omega
    subst this
    rfl
  · refine (monitor_action_iff_no_stop (retrieveAct "d") 1 [DepEv.stop] _).1 ?_
    exact ⟨0, Nat.zero_lt_one, rfl⟩

/-- C1 is false exactly as stated: in a run where the operator is a member,
the timeout elapses and no stop event arrives, but the keep public key was
never submitted, the monitor makes three action calls and none succeeds, so it
is not the case that exactly one successful action call is made. -/
theorem monitor_exactly_one_success_counterexample :
    timerFires 1 [DepEv.tick] ∧
    ¬ stopsBefore 1 [DepEv.tick] ∧
    isMemberOf (createDeposit emptyChain "d" 1 [5]) 5 "d" = true ∧
    (runTask (isMemberOf (createDeposit emptyChain "d" 1 [5]) 5 "d")
        (retrieveAct "d") 1 [DepEv.tick]
        (createDeposit emptyChain "d" 1 [5])).2 = (3, 0) := by
  refine ⟨⟨by simp, fun i hi => ?_⟩, ?_, by decide, by decide⟩
  · have : i = 0 := by omega
    subst this
    rfl
  · rintro ⟨i, hi, hget⟩
    have : i = 0 := by omega
    subst this
    simp at hget

/-- C3: when the operator address is not among the members of the deposit
keep, a monitor task for that deposit (whatever its recovery action, so this
covers the retrieve-pubkey, provide-redemption-signature and
increase-redemption-fee monitors) makes zero action calls and leaves every
submission counter of the chain unchanged. -/
theorem nonmember_zero_submissions (s : ChainState) (operator : Nat)
    (depositAddress : String) (act : ChainAction) (t : Nat) (trace : List DepEv)
    (s0 : ChainState) (h : isMemberOf s operator depositAddress = false) :
    runTask (isMemberOf s operator depositAddress) act t trace s0 = (s0, 0, 0) ∧
    (runTask (isMemberOf s operator depositAddress) act t trace s0).1.retrieveSignerPubkeyCalls =
      s0.retrieveSignerPubkeyCalls ∧
    (runTask (isMemberOf s operator depositAddress) act t trace s0).1.provideRedemptionSignatureCalls =
      s0.provideRedemptionSignatureCalls ∧
    (runTask (isMemberOf s operator depositAddress) act t trace s0).1.increaseRedemptionFeeCalls =
      s0.increaseRedemptionFeeCalls := by
  have hrun : runTask (isMemberOf s operator depositAddress) act t trace s0 = (s0, 0, 0) := by
    simp [runTask, h]
  exact ⟨hrun, by rw [hrun], by rw [hrun], by rw [hrun]⟩

/-- Witness for C3: operator 99 is not among the signers of the deposit keep,
and the task makes zero calls. -/
theorem nonmember_zero_submissions_witness :
    runTask (isMemberOf (createDeposit emptyChain "d" 1 [10, 11, 12]) 99 "d")
        (retrieveAct "d") 1 [DepEv.tick]
        (createDeposit emptyChain "d" 1 [10, 11, 12]) =
      (createDeposit emptyChain "d" 1 [10, 11, 12], 0, 0) ∧
    (runTask (isMemberOf (createDeposit emptyChain "d" 1 [10, 11, 12]) 99 "d")
        (retrieveAct "d") 1 [DepEv.tick]
        (createDeposit emptyChain "d" 1 [10, 11, 12])).1.retrieveSignerPubkeyCalls =
      (createDeposit emptyChain "d" 1 [10, 11, 12]).retrieveSignerPubkeyCalls ∧
    (runTask (isMemberOf (createDeposit emptyChain "d" 1 [10, 11, 12]) 99 "d")
        (retrieveAct "d") 1 [DepEv.tick]
        (createDeposit emptyChain "d" 1 [10, 11, 12])).1.provideRedemptionSignatureCalls =
      (createDeposit emptyChain "d" 1 [10, 11, 12]).provideRedemptionSignatureCalls ∧
    (runTask (isMemberOf (createDeposit emptyChain "d" 1 [10, 11, 12]) 99 "d")
        (retrieveAct "d") 1 [DepEv.tick]
        (createDeposit emptyChain "d" 1 [10, 11, 12])).1.increaseRedemptionFeeCalls =
      (createDeposit emptyChain "d" 1 [10, 11, 12]).increaseRedemptionFeeCalls :=
  nonmember_zero_submissions (createDeposit emptyChain "d" 1 [10, 11, 12]) 99 "d"
    (retrieveAct "d") 1 [DepEv.tick] (createDeposit emptyChain "d" 1 [10, 11, 12])
    (by decide)

theorem getLocalDeposit_retrieveBump (s : ChainState) (a : String) (c : Nat) :
    getLocalDeposit { s with retrieveSignerPubkeyCalls := c } a = getLocalDeposit s a := rfl

theorem getKeep_retrieveBump (s : ChainState) (k : Nat) (c : Nat) :
    getKeep { s with retrieveSignerPubkeyCalls := c } k = getKeep s k := rfl

theorem retrieveAct_fail_of_zero_keep (a : String) (s : ChainState)
    (d : LocalDeposit) (k : LocalKeep)
    (hd : getLocalDeposit s a = some d) (hp : d.pubkey = [])
    (hk : getKeep s d.keepAddress = some k)
    (hz : k.publicKey = List.replicate k.publicKey.length 0) :
    retrieveAct a s =
      ({ s with retrieveSignerPubkeyCalls := s.retrieveSignerPubkeyCalls + 1 }, false) := by
  unfold retrieveAct retrieveSignerPubkey
  simp only [getLocalDeposit_retrieveBump, getKeep_retrieveBump, hd, hp, hk]
  rw [if_neg (by simp)]
  rw [if_pos (Or.inr hz)]
  simp [exceptOk]

theorem attemptLoop_retrieve_zero_keep (a : String) (n : Nat) :
    ∀ (s : ChainState) (d : LocalDeposit) (k : LocalKeep),
      getLocalDeposit s a = some d → d.pubkey = [] →
      getKeep s d.keepAddress = some k →
      k.publicKey = List.replicate k.publicKey.length 0 →
      attemptLoop (retrieveAct a) n s =
        ({ s with retrieveSignerPubkeyCalls := s.retrieveSignerPubkeyCalls + n }, n, 0) := by
  induction n with
  | zero => intro s d k _ _ _ _; rfl
  | succ n ih =>
      intro s d k hd hp hk hz
      have hact := retrieveAct_fail_of_zero_keep a s d k hd hp hk hz
      have hrec := ih { s with retrieveSignerPubkeyCalls := s.retrieveSignerPubkeyCalls + 1 }
        d k (by rw [getLocalDeposit_retrieveBump]; exact hd) hp
        (by rw [getKeep_retrieveBump]; exact hk) hz
      simp only [attemptLoop, hact, Bool.false_eq_true, if_false, hrec]
      have : s.retrieveSignerPubkeyCalls + 1 + n = s.retrieveSignerPubkeyCalls + (n + 1) := by
        omega
      rw [this]

/-- C4: with the deposit created but the keep public key never submitted, a
monitor run whose timeout elapses makes exactly 3 `RetrieveSignerPubkey`
calls, all of which fail: the final chain state differs from the initial one
only in the call counter, the deposit pubkey query still answers "no pubkey",
and with the default test backoff (1 ms per retry) the last call happens
within twice the 500 ms monitoring timeout. -/
theorem retrievePubkey_action_failed (depositAddress : String) (keepAddress : Nat)
    (signers : List Nat) (t : Nat) (trace : List DepEv)
    (hT : timerFires t trace) :
    runTask true (retrieveAct depositAddress) t trace
        (createDeposit emptyChain depositAddress keepAddress signers) =
      ({ createDeposit emptyChain depositAddress keepAddress signers with
          retrieveSignerPubkeyCalls := 3 }, 3, 0) ∧
    depositPubkey
        { createDeposit emptyChain depositAddress keepAddress signers with
            retrieveSignerPubkeyCalls := 3 } depositAddress =
      Except.error "no pubkey for deposit" ∧
    monitorFinishTime constantBackoff 500 maxActAttempts ≤ 2 * 500 := by
  have hd : getLocalDeposit (createDeposit emptyChain depositAddress keepAddress signers)
      depositAddress =
      some { keepAddress := keepAddress, pubkey := [], signature := none,
             redemptionFee := 0 } := by
    simp [getLocalDeposit, createDeposit, emptyChain]
  have hk : getKeep (createDeposit emptyChain depositAddress keepAddress signers)
      keepAddress = some { publicKey := zeroPubkey, members := signers } := by
    simp [getKeep, createDeposit, emptyChain]
  refine ⟨?_, ?_, by decide⟩
  · have hrun : runTask true (retrieveAct depositAddress) t trace
        (createDeposit emptyChain depositAddress keepAddress signers) =
        attemptLoop (retrieveAct depositAddress) maxActAttempts
          (createDeposit emptyChain depositAddress keepAddress signers) := by
      simpa [runTask] using watchRun_of_timerFires (retrieveAct depositAddress) t trace _ hT
    rw [hrun]
    have := attemptLoop_retrieve_zero_keep depositAddress maxActAttempts
      (createDeposit emptyChain depositAddress keepAddress signers)
      { keepAddress := keepAddress, pubkey := [], signature := none, redemptionFee := 0 }
      { publicKey := zeroPubkey, members := signers } hd rfl hk (by simp [zeroPubkey])
    simpa [maxActAttempts] using this
  · simp [depositPubkey, getLocalDeposit_retrieveBump, hd]

/-- Witness for C4 at the concrete inputs of
`TestRetrievePubkey_ActionFailed`: deposit "d" on keep 1, timer of one tick. -/
theorem retrievePubkey_action_failed_witness :
    runTask true (retrieveAct "d") 1 [DepEv.tick]
        (createDeposit emptyChain "d" 1 [5]) =
      ({ createDeposit emptyChain "d" 1 [5] with retrieveSignerPubkeyCalls := 3 }, 3, 0) ∧
    depositPubkey { createDeposit emptyChain "d" 1 [5] with retrieveSignerPubkeyCalls := 3 }
        "d" = Except.error "no pubkey for deposit" ∧
    monitorFinishTime constantBackoff 500 maxActAttempts ≤ 2 * 500 := by
  refine retrievePubkey_action_failed "d" 1 [5] 1 [DepEv.tick] ⟨by simp, fun i hi => ?_⟩
  have : i = 0 := by omega
  subst this
  rfl

theorem find?_map_replace (l : List (String × LocalDeposit)) (a : String)
    (d' : LocalDeposit) (h : (l.find? (fun p => p.1 == a)).isSome) :
    (l.map (fun p => if p.1 == a then (p.1, d') else p)).find? (fun p => p.1 == a) =
      some (a, d') := by
  induction l with
  | nil => simp at h
  | cons p l ih =>
      cases hb : (p.1 == a) with
      | true =>
          have hpa : p.1 = a := by simpa using hb
          simp only [List.map_cons, List.find?_cons, hb, if_true, hpa]
          simp
      | false =>
          have hh : (l.find? (fun p => p.1 == a)).isSome := by
            simp only [List.find?_cons, hb] at h
            exact h
          simp only [List.map_cons, List.find?_cons, hb, Bool.false_eq_true, if_false]
          exact ih hh

theorem getLocalDeposit_set (s : ChainState) (a : String) (d' : LocalDeposit)
    (h : (getLocalDeposit s a).isSome) :
    getLocalDeposit (setLocalDeposit s a d') a = some d' := by
  unfold getLocalDeposit setLocalDeposit
  have : (s.deposits.find? (fun p => p.1 == a)).isSome := by
    unfold getLocalDeposit at h
    simpa using h
  rw [find?_map_replace s.deposits a d' this]
  rfl

theorem getLocalDeposit_feeBump (s : ChainState) (a : String) (c : Nat) :
    getLocalDeposit { s with increaseRedemptionFeeCalls := c } a = getLocalDeposit s a := rfl

theorem increaseFeeAct_success (a : String) (s : ChainState) (d : LocalDeposit)
    (hd : getLocalDeposit s a = some d)
    (hfail : s.alwaysFailing.contains "IncreaseRedemptionFee" = false) :
    increaseFeeAct a s =
      (setLocalDeposit
          { s with increaseRedemptionFeeCalls := s.increaseRedemptionFeeCalls + 1 } a
          { d with redemptionFee := 2 * d.redemptionFee },
        true) := by
  unfold increaseFeeAct increaseRedemptionFee
  have hfail2 : ({ s with increaseRedemptionFeeCalls := s.increaseRedemptionFeeCalls + 1 } :
      ChainState).alwaysFailing.contains "IncreaseRedemptionFee" = false := hfail
  simp only [getLocalDeposit_feeBump, hd, hfail2, Bool.false_eq_true, if_false]
  simp [exceptOk]

/-- C5 (amended): a per-deposit task of the provide-redemption-proof monitor
makes at most one successful `IncreaseRedemptionFee` call per start event, for
every run of every monitor task; when the action always fails there can be up
to 3 failed calls; and in the timeout-elapsed case with the deposit known and
transactions not forced to fail, the task makes exactly one call, which
succeeds and leaves the deposit redemption fee at twice its initial value. -/
theorem increase_fee_once_per_event (a : String) (t : Nat) (trace : List DepEv)
    (s : ChainState) (d : LocalDeposit) (hd : getLocalDeposit s a = some d)
    (hfail : s.alwaysFailing.contains "IncreaseRedemptionFee" = false)
    (hT : timerFires t trace) :
    (∀ (member : Bool) (act : ChainAction) (t2 : Nat) (tr2 : List DepEv)
        (s2 : ChainState), (runTask member act t2 tr2 s2).2.2 ≤ 1) ∧
    (runTask true (increaseFeeAct a) t trace s).2 = (0, 1) ∧
    (runTask true (increaseFeeAct a) t trace s).1.increaseRedemptionFeeCalls =
      s.increaseRedemptionFeeCalls + 1 ∧
    depositRedemptionFee (runTask true (increaseFeeAct a) t trace s).1 a =
      Except.ok (2 * d.redemptionFee) := by
  have hact := increaseFeeAct_success a s d hd hfail
  have hrun : runTask true (increaseFeeAct a) t trace s =
      ((increaseFeeAct a s).1, 0, 1) := by
    have h1 : runTask true (increaseFeeAct a) t trace s =
        attemptLoop (increaseFeeAct a) maxActAttempts s := by
      simpa [runTask] using watchRun_of_timerFires (increaseFeeAct a) t trace s hT
    rw [h1]
    exact attemptLoop_first_success (increaseFeeAct a) s (by rw [hact]) 2
  refine ⟨fun member act t2 tr2 s2 => runTask_success_le_one member act t2 tr2 s2,
    by rw [hrun], ?_, ?_⟩
  · rw [hrun, hact]
    rfl
  · rw [hrun, hact]
    have hsome : (getLocalDeposit
        { s with increaseRedemptionFeeCalls := s.increaseRedemptionFeeCalls + 1 } a).isSome := by
      rw [getLocalDeposit_feeBump, hd]
      rfl
    simp [depositRedemptionFee, getLocalDeposit_set _ _ _ hsome]

/-- Witness for C5 at a concrete fee-bump scenario: deposit "d" with
redemption fee 990 and no forced failures; the task calls
`IncreaseRedemptionFee` once and the fee becomes 1980. -/
theorem increase_fee_once_per_event_witness :
    (∀ (member : Bool) (act : ChainAction) (t2 : Nat) (tr2 : List DepEv)
        (s2 : ChainState), (runTask member act t2 tr2 s2).2.2 ≤ 1) ∧
    (runTask true (increaseFeeAct "d") 1 [DepEv.tick]
        (setLocalDeposit (createDeposit emptyChain "d" 1 [5]) "d"
          { keepAddress := 1, pubkey := [], signature := none, redemptionFee := 990 })).2 =
      (0, 1) ∧
    (runTask true (increaseFeeAct "d") 1 [DepEv.tick]
        (setLocalDeposit (createDeposit emptyChain "d" 1 [5]) "d"
          { keepAddress := 1, pubkey := [], signature := none,
            redemptionFee := 990 })).1.increaseRedemptionFeeCalls =
      (setLocalDeposit (createDeposit emptyChain "d" 1 [5]) "d"
          { keepAddress := 1, pubkey := [], signature := none,
            redemptionFee := 990 }).increaseRedemptionFeeCalls + 1 ∧
    depositRedemptionFee
        (runTask true (increaseFeeAct "d") 1 [DepEv.tick]
          (setLocalDeposit (createDeposit emptyChain "d" 1 [5]) "d"
            { keepAddress := 1, pubkey := [], signature := none,
              redemptionFee := 990 })).1 "d" =
      Except.ok (2 * 990) := by
  refine increase_fee_once_per_event "d" 1 [DepEv.tick]
    (setLocalDeposit (createDeposit emptyChain "d" 1 [5]) "d"
      { keepAddress := 1, pubkey := [], signature := none, redemptionFee := 990 })
    { keepAddress := 1, pubkey := [], signature := none, redemptionFee := 990 }
    (by decide) (by decide) ⟨by simp, fun i hi => ?_⟩
  have : i = 0 := by omega
  subst this
  rfl

/-- C5 is false exactly as stated: when the chain rejects every
`IncreaseRedemptionFee` transaction (the `SetAlwaysFailingTransactions` test
capability), a single start event whose timeout elapses leads to three
`IncreaseRedemptionFee` calls, not at most one. -/
theorem increase_fee_at_most_once_counterexample :
    timerFires 1 [DepEv.tick] ∧
    (runTask true (increaseFeeAct "d") 1 [DepEv.tick]
        { createDeposit emptyChain "d" 1 [5] with
            alwaysFailing := ["IncreaseRedemptionFee"] }).1.increaseRedemptionFeeCalls =
      3 := by
  refine ⟨⟨by simp, fun i hi => ?_⟩, by decide⟩
  have : i = 0 := by omega
  subst this
  rfl

/-! ### Helper lemmas for address derivation -/

/-- The extended key whose public key `DeriveAddress` hashes for a parsed key
`k` and requested index `i`: `k` descended through child 0 until depth 4 (no
step when the depth is already at least 4) and then through child `i`. -/
def derivedExternalKey (k : XKey) (i : Nat) : XKey :=
  { seed := k.seed, depth := max k.depth 4 + 1,
    path := k.path ++ List.replicate (4 - k.depth) 0 ++ [i] }

theorem descendToExternalChain_spec_aux (n : Nat) :
    ∀ k : XKey, 4 - k.depth = n →
      descendToExternalChain k =
        { seed := k.seed, depth := max k.depth 4,
          path := k.path ++ List.replicate (4 - k.depth) 0 } := by
  induction n with
  | zero =>
      intro k hk
      have h4 : ¬ k.depth < 4 := by omega
      rw [descendToExternalChain, if_neg h4]
      have hmax : max k.depth 4 = k.depth := Nat.max_eq_left (by omega)
      have hrep : 4 - k.depth = 0 := by omega
      cases k with
      | mk seed depth path => simp_all
  | succ n ih =>
      intro k hk
      have h4 : k.depth < 4 := by omega
      rw [descendToExternalChain, if_pos h4]
      rw [ih { seed := k.seed, depth := k.depth + 1, path := k.path ++ [0] } (by simp; omega)]
      have hmax : max (k.depth + 1) 4 = max k.depth 4 := by
        rw [Nat.max_eq_right (by omega), Nat.max_eq_right (by omega)]
      have hrep : (4 - k.depth) = (4 - (k.depth + 1)) + 1 := by omega
      simp only [hmax, hrep, List.replicate_succ]
      simp [List.append_assoc]

theorem descendToExternalChain_spec (k : XKey) :
    descendToExternalChain k =
      { seed := k.seed, depth := max k.depth 4,
        path := k.path ++ List.replicate (4 - k.depth) 0 } :=
  descendToExternalChain_spec_aux (4 - k.depth) k rfl

/-- C6: for every extended public key that parses and has a recognized
four-character prefix, and for every non-hardened child index, DeriveAddress
succeeds; the key it hashes is the parsed key descended through child 0 until
depth 4 (deriving the index directly when the depth is already at least 4) and
then through the requested index; and the emitted network and address form are
exactly the ones the prefix dictates: xpub and tpub give P2PKH, ypub and upub
give P2WPKH-in-P2SH over the redeem script 0x0014 followed by the pubkey hash,
zpub and vpub give native P2WPKH; xpub, ypub, zpub select mainnet and tpub,
upub, vpub select testnet3. -/
theorem deriveAddress_recognized_descriptor (parse : String → Option XKey)
    (s : String) (i : Nat) (k : XKey)
    (hparse : parse s = some k) (hdepth : k.depth < maxKeyDepth)
    (hi : i < hardenedKeyStart) :
    (s.toList.take 4 = String.toList "xpub" →
        deriveAddress parse s i = DeriveOutcome.ok
          (BtcAddress.p2pkh BtcNetwork.mainnet
            (hash160 (pubkeyBytes (derivedExternalKey k i))))) ∧
    (s.toList.take 4 = String.toList "tpub" →
        deriveAddress parse s i = DeriveOutcome.ok
          (BtcAddress.p2pkh BtcNetwork.testnet3
            (hash160 (pubkeyBytes (derivedExternalKey k i))))) ∧
    (s.toList.take 4 = String.toList "ypub" →
        deriveAddress parse s i = DeriveOutcome.ok
          (BtcAddress.p2sh BtcNetwork.mainnet
            (hash160 ([0, 0x14] ++ hash160 (pubkeyBytes (derivedExternalKey k i)))))) ∧
    (s.toList.take 4 = String.toList "upub" →
        deriveAddress parse s i = DeriveOutcome.ok
          (BtcAddress.p2sh BtcNetwork.testnet3
            (hash160 ([0, 0x14] ++ hash160 (pubkeyBytes (derivedExternalKey k i)))))) ∧
    (s.toList.take 4 = String.toList "zpub" →
        deriveAddress parse s i = DeriveOutcome.ok
          (BtcAddress.p2wpkh BtcNetwork.mainnet
            (hash160 (pubkeyBytes (derivedExternalKey k i))))) ∧
    (s.toList.take 4 = String.toList "vpub" →
        deriveAddress parse s i = DeriveOutcome.ok
          (BtcAddress.p2wpkh BtcNetwork.testnet3
            (hash160 (pubkeyBytes (derivedExternalKey k i))))) := by
  have hchild : childKey (descendToExternalChain k) i =
      Except.ok (derivedExternalKey k i) := by
    rw [descendToExternalChain_spec]
    unfold childKey
    rw [if_neg (by simp only [maxKeyDepth] at *; omega), if_neg (by omega)]
    rfl
  have hbase : deriveAddress parse s i =
      (match (if mainnetPrefixes.contains (s.toList.take 4) then some BtcNetwork.mainnet
              else if testnetPrefixes.contains (s.toList.take 4) then
                some BtcNetwork.testnet3
              else none) with
       | none => DeriveOutcome.panicked
       | some net =>
           if s.toList.take 4 = String.toList "xpub" ∨
               s.toList.take 4 = String.toList "tpub" then
             DeriveOutcome.ok (BtcAddress.p2pkh net
               (hash160 (pubkeyBytes (derivedExternalKey k i))))
           else if s.toList.take 4 = String.toList "ypub" ∨
               s.toList.take 4 = String.toList "upub" then
             DeriveOutcome.ok (BtcAddress.p2sh net
               (hash160 ([0, 0x14] ++ hash160 (pubkeyBytes (derivedExternalKey k i)))))
           else
             DeriveOutcome.ok (BtcAddress.p2wpkh net
               (hash160 (pubkeyBytes (derivedExternalKey k i))))) := by
    unfold deriveAddress
    rw [hparse]
    simp only [hchild]
  refine ⟨fun h => ?_, fun h => ?_, fun h => ?_, fun h => ?_, fun h => ?_, fun h => ?_⟩ <;>
    rw [hbase, h] <;> rfl

/-- Witness for C6: a concrete parse of a depth-2 vpub key; the address is a
testnet3 native P2WPKH over the key descended through two 0 children and then
index 7. -/
theorem deriveAddress_recognized_descriptor_witness :
    (String.toList "vpubk").take 4 = String.toList "vpub" ∧
    deriveAddress
        (fun s => if s = "vpubk" then some { seed := 3, depth := 2, path := [] } else none)
        "vpubk" 7 =
      DeriveOutcome.ok (BtcAddress.p2wpkh BtcNetwork.testnet3
        (hash160 (pubkeyBytes (derivedExternalKey { seed := 3, depth := 2, path := [] } 7)))) := by
  refine ⟨by decide, ?_⟩
  exact (deriveAddress_recognized_descriptor
    (fun s => if s = "vpubk" then some { seed := 3, depth := 2, path := [] } else none)
    "vpubk" 7 { seed := 3, depth := 2, path := [] }
    (by decide) (by decide) (by decide)).2.2.2.2.2 (by decide)

/-- C7: evaluation of the DeriveAddress failure paths.  An unparseable key
gives the parse error and a hardened index gives the derivation error, as the
claim says; but a parseable key with an unrecognized four-character prefix
(here a stand-in for a Litecoin Ltub key) makes the function panic on the nil
chain parameters inside the address construction instead of returning an
UnknownPrefix error. -/
theorem deriveAddress_bad_input_outcomes :
    deriveAddress
        (fun s => if s = "Ltubk" then some { seed := 7, depth := 3, path := [] } else none)
        "bad" 0 =
      DeriveOutcome.err "error parsing extended public key" ∧
    deriveAddress
        (fun s => if s = "vpubk" then some { seed := 7, depth := 3, path := [] } else none)
        "vpubk" (2 ^ 31) =
      DeriveOutcome.err "error deriving requested address index from extended key" ∧
    deriveAddress
        (fun s => if s = "Ltubk" then some { seed := 7, depth := 3, path := [] } else none)
        "Ltubk" 0 =
      DeriveOutcome.panicked := by
  refine ⟨by decide, ?_, ?_⟩ <;>
    · simp only [deriveAddress, descendToExternalChain_spec]
      decide

/-- C8: converting a keep signature for on-chain submission yields
`v = 27 + recovery_id` for every recovery id in 0..3, and submitting that
converted signature to a deposit that is awaiting one stores it verbatim, so
the redemption signature recorded on the deposit satisfies
`v = 27 + recovery_id`. -/
theorem toChainSignature_v_is_27_plus_recovery (recoveryID : Nat)
    (hrid : recoveryID < 4) (rBytes sBytes : Bytes)
    (hr : rBytes.length ≤ 32) (hs : sBytes.length ≤ 32) :
    ∃ sig : ChainSig,
      toChainSignature recoveryID rBytes sBytes = Except.ok sig ∧
      sig.v = 27 + recoveryID ∧
      ∀ (st : ChainState) (a : String) (d : LocalDeposit),
        getLocalDeposit st a = some d → d.signature = none →
        ∃ st' : ChainState,
          provideRedemptionSignature st a sig.v sig.r sig.s = (st', Except.ok ()) ∧
          depositSignature st' a = Except.ok sig := by
  have hv : (27 + recoveryID) % 256 = 27 + recoveryID := Nat.mod_eq_of_lt (by omega)
  refine ⟨{ v := (27 + recoveryID) % 256,
            r := List.replicate (32 - rBytes.length) 0 ++ rBytes,
            s := List.replicate (32 - sBytes.length) 0 ++ sBytes }, ?_, by simpa using hv, ?_⟩
  · unfold toChainSignature bytesTo32Byte
    rw [if_neg (by omega), if_neg (by omega)]
  · intro st a d hd hsig
    refine ⟨setLocalDeposit
        { st with provideRedemptionSignatureCalls := st.provideRedemptionSignatureCalls + 1 }
        a
        { d with signature := some (ChainSig.mk ((27 + recoveryID) % 256) (List.replicate (32 - rBytes.length) 0 ++ rBytes) (List.replicate (32 - sBytes.length) 0 ++ sBytes)) }, ?_, ?_⟩
    · unfold provideRedemptionSignature
      have hd2 : getLocalDeposit
          { st with provideRedemptionSignatureCalls := st.provideRedemptionSignatureCalls + 1 }
          a = some d := hd
      simp only [hd2, hsig]
    · have hsome : (getLocalDeposit
          { st with provideRedemptionSignatureCalls := st.provideRedemptionSignatureCalls + 1 }
          a).isSome := by
        have hd2 : getLocalDeposit
            { st with
              provideRedemptionSignatureCalls := st.provideRedemptionSignatureCalls + 1 }
            a = some d := hd
        rw [hd2]
        rfl
      unfold depositSignature
      rw [getLocalDeposit_set _ _ _ hsome]

/-- Witness for C8: recovery id 3 with one-byte r and s values; the stored
deposit signature has v = 30. -/
theorem toChainSignature_v_witness :
    ∃ sig : ChainSig,
      toChainSignature 3 [1] [2] = Except.ok sig ∧
      sig.v = 27 + 3 ∧
      ∀ (st : ChainState) (a : String) (d : LocalDeposit),
        getLocalDeposit st a = some d → d.signature = none →
        ∃ st' : ChainState,
          provideRedemptionSignature st a sig.v sig.r sig.s = (st', Except.ok ()) ∧
          depositSignature st' a = Except.ok sig :=
  toChainSignature_v_is_27_plus_recovery 3 (by decide) [1] [2] (by decide) (by decide)

/-- C9 is false as stated for the current Electrs client: with an empty API
URL, `electrsConnection.Broadcast` returns an error immediately, even when the
backend would accept the transaction; it does not warn and return nil. -/
theorem broadcast_empty_url_counterexample :
    electrsBroadcast "" [some (200, "txid")] =
      Except.error "attempted to call Broadcast with no apiURL" := rfl

/-- C9 (amended): with an empty Electrs API URL, the legacy
`ElectrsConnection.Broadcast` used by the recovery path prints the
please-broadcast warning five times and returns without error, for whatever
response the network would have given; the retrying `electrsConnection`
variant instead returns an error reporting the missing API URL without
attempting a broadcast. -/
theorem broadcast_empty_url_behavior :
    (∀ response : HttpResp, legacyBroadcast "" response = (5, Except.ok ())) ∧
    (∀ responses : List HttpResp,
        electrsBroadcast "" responses =
          Except.error "attempted to call Broadcast with no apiURL") := by
  constructor
  · intro response
    rfl
  · intro responses
    rfl

theorem doWithRetry_all_fail {α β : Type} (act : α → Except String β)
    (xs : List α) (h : ∀ x ∈ xs, exceptOk (act x) = false) :
    ∃ e, doWithRetry act xs = Except.error e := by
  induction xs with
  | nil => exact ⟨"retry timeout exceeded", rfl⟩
  | cons x xs ih =>
      cases xs with
      | nil =>
          have hx := h x (by simp)
          cases hact : act x with
          | ok b => rw [hact] at hx; simp [exceptOk] at hx
          | error e => exact ⟨e, by simp [doWithRetry, hact]⟩
      | cons y ys =>
          have hx := h x (by simp)
          cases hact : act x with
          | ok b => rw [hact] at hx; simp [exceptOk] at hx
          | error e =>
              obtain ⟨e2, he2⟩ := ih (fun z hz => h z (by simp [hz]))
              exact ⟨e2, by simp [doWithRetry, hact, he2]⟩

theorem doWithRetry_ok_mem {α β : Type} (act : α → Except String β)
    (xs : List α) (b : β) (h : doWithRetry act xs = Except.ok b) :
    ∃ x ∈ xs, act x = Except.ok b := by
  induction xs with
  | nil => simp [doWithRetry] at h
  | cons x xs ih =>
      cases xs with
      | nil =>
          exact ⟨x, by simp, by simpa [doWithRetry] using h⟩
      | cons y ys =>
          cases hact : act x with
          | ok b2 =>
              rw [show doWithRetry act (x :: y :: ys) =
                  (match act x with
                   | Except.ok b => Except.ok b
                   | Except.error _ => doWithRetry act (y :: ys)) from rfl, hact] at h
              refine ⟨x, by simp, ?_⟩
              rw [hact]
              simpa using h
          | error e =>
              rw [show doWithRetry act (x :: y :: ys) =
                  (match act x with
                   | Except.ok b => Except.ok b
                   | Except.error _ => doWithRetry act (y :: ys)) from rfl, hact] at h
              obtain ⟨z, hz, hzok⟩ := ih h
              exact ⟨z, by simp [hz], hzok⟩

/-- C10: IsAddressUnused never reports an address as used when it cannot tell:
with an empty API URL it answers true with an error; when every attempt the
deadline admits fails (transport error, non-200 status, or undecodable body)
it answers true with the last error; and an answer of false can only come from
a successful query whose decoded transaction list was non-empty, in which case
no error is returned. -/
theorem isAddressUnused_conservative :
    (∀ responses : List TxsResp,
        isAddressUnused "" responses =
          (true, some "attempted to call IsAddressUnused with no apiURL")) ∧
    (∀ (apiURL : String) (responses : List TxsResp), apiURL ≠ "" →
        (∀ r ∈ responses, exceptOk (isAddressUnusedAttempt r) = false) →
        ∃ e, isAddressUnused apiURL responses = (true, some e)) ∧
    (∀ (apiURL : String) (responses : List TxsResp),
        (isAddressUnused apiURL responses).1 = false →
        ∃ n, TxsResp.txs n ∈ responses ∧ n ≠ 0 ∧
          (isAddressUnused apiURL responses).2 = none) := by
  refine ⟨fun responses => rfl, ?_, ?_⟩
  · intro apiURL responses hurl hfail
    obtain ⟨e, he⟩ := doWithRetry_all_fail isAddressUnusedAttempt responses hfail
    exact ⟨e, by simp [isAddressUnused, hurl, he]⟩
  · intro apiURL responses hfalse
    by_cases hurl : apiURL = ""
    · rw [hurl] at hfalse
      simp [isAddressUnused] at hfalse
    · unfold isAddressUnused at hfalse ⊢
      rw [if_neg hurl] at hfalse ⊢
      cases hret : doWithRetry isAddressUnusedAttempt responses with
      | error e => rw [hret] at hfalse; simp at hfalse
      | ok b =>
          rw [hret] at hfalse
          simp at hfalse
          obtain ⟨r, hr, hrok⟩ := doWithRetry_ok_mem isAddressUnusedAttempt responses b hret
          cases r with
          | transportErr => simp [isAddressUnusedAttempt] at hrok
          | badStatus st => simp [isAddressUnusedAttempt] at hrok
          | decodeErr => simp [isAddressUnusedAttempt] at hrok
          | txs n =>
              simp [isAddressUnusedAttempt] at hrok
              refine ⟨n, hr, ?_, rfl⟩
              intro hn0
              rw [hfalse] at hrok
              exact absurd (hrok.symm) (by simp [hn0])

/-- Witness for C10: the empty-URL case, a run of two failing attempts, and a
run whose second attempt succeeds with three recorded transactions and
therefore answers false without error. -/
theorem isAddressUnused_conservative_witness :
    isAddressUnused "" [] =
      (true, some "attempted to call IsAddressUnused with no apiURL") ∧
    (∃ e, isAddressUnused "u" [TxsResp.transportErr, TxsResp.badStatus 500] =
      (true, some e)) ∧
    (∃ n, TxsResp.txs n ∈ [TxsResp.transportErr, TxsResp.txs 3] ∧ n ≠ 0 ∧
      (isAddressUnused "u" [TxsResp.transportErr, TxsResp.txs 3]).2 = none) :=
  ⟨isAddressUnused_conservative.1 [],
   isAddressUnused_conservative.2.1 "u" [TxsResp.transportErr, TxsResp.badStatus 500]
     (by decide) (by decide),
   isAddressUnused_conservative.2.2 "u" [TxsResp.transportErr, TxsResp.txs 3] (by decide)⟩
